import Mathlib

/-!
Verification of the matrix-rescaling and kernel-application core of
`geokit/_core/util.py` (functions `scaleMatrix` and `KernelProcessor`).

Matrices are embedded as a structure carrying explicit row/column extents,
an element-type tag (`int` / `float`, mirroring numpy dtypes), and a total
data function `Nat → Nat → ℚ`; only indices below the extents are
meaningful.  The Python functions are translated operation by operation:
numpy strided assignments/accumulations become folds over `List.range`,
padding by concatenation becomes a conditional extension of the data
function, and the in-place boundary corrections become sequential
conditional updates in the order the source applies them.
-/

/-- Element-type tag of a matrix, mirroring the numpy dtype distinction the
source cares about (integer vs floating-point). -/
inductive DType where
  | int : DType
  | float : DType
deriving DecidableEq, Repr

/-- A 2-D matrix: row/column extents, element-type tag, and a total data
function (entries outside the extents are irrelevant). -/
structure Mat where
  rows : Nat
  cols : Nat
  dtype : DType
  data : Nat → Nat → ℚ

/-- Build a matrix from a list of rows (row-major literals). -/
def matOfList (dt : DType) (l : List (List ℚ)) : Mat :=
  { rows := l.length
    cols := (l.headD []).length
    dtype := dt
    data := fun r c => ((l.getD r []).getD c 0) }

/-- Errors raised by `scaleMatrix` (`GeoKitError` with the corresponding
message strings in the source). -/
inductive ScaleError where
  | invalidDirection : ScaleError
  | nonFactor : ScaleError
deriving DecidableEq, Repr

/-- `yPad = yScale - rows % yScale; if yPad == yScale: yPad = 0`
(source lines 200-204, one axis). -/
def padOf (dim scale : Nat) : Nat :=
  let p := scale - dim % scale
  if p = scale then 0 else p

/-- `np.concatenate((mat, np.zeros((yPad, cols))), 0)` guarded by
`if yPad > 0` (source line 207); concatenating float zeros promotes the
dtype to float. -/
def padY (m : Mat) (yPad : Nat) : Mat :=
  if 0 < yPad then
    { rows := m.rows + yPad
      cols := m.cols
      dtype := DType.float
      data := fun r c => if r < m.rows then m.data r c else 0 }
  else m

/-- `np.concatenate((mat, np.zeros((rows, xPad))), 1)` guarded by
`if xPad > 0` (source line 208). -/
def padX (m : Mat) (xPad : Nat) : Mat :=
  if 0 < xPad then
    { rows := m.rows
      cols := m.cols + xPad
      dtype := DType.float
      data := fun r c => if c < m.cols then m.data r c else 0 }
  else m

/-- One strided assignment `out[yo::ys, xo::xs] = mat` (source line 188):
position `(r, c)` with `r % ys = yo` and `c % xs = xo` receives
`mat[r / ys, c / xs]`; all other positions keep their previous value. -/
def stridedWrite (src : Nat → Nat → ℚ) (ys xs yo xo : Nat)
    (acc : Nat → Nat → ℚ) : Nat → Nat → ℚ :=
  fun r c => if r % ys = yo ∧ c % xs = xo then src (r / ys) (c / xs) else acc r c

/-- The double loop `for yo in range(yScale): for xo in range(xScale):
out[yo::yScale, xo::xScale] = mat` starting from `np.zeros` (source lines
185-188). -/
def upData (mat : Mat) (ys xs : Nat) : Nat → Nat → ℚ :=
  (List.range ys).foldl
    (fun acc yo =>
      (List.range xs).foldl (fun acc2 xo => stridedWrite mat.data ys xs yo xo acc2) acc)
    (fun _ _ => 0)

/-- The scale-up branch: output extents `(rows*yScale, cols*xScale)`, dtype
of the input (source line 185). -/
def upScaled (mat : Mat) (ys xs : Nat) : Mat :=
  { rows := mat.rows * ys
    cols := mat.cols * xs
    dtype := mat.dtype
    data := upData mat ys xs }

/-- The accumulation `for yo in range(yScale): for xo in range(xScale):
out += mat[yo::yScale, xo::xScale]` starting from `np.zeros` (source lines
211-213); the strided slice places `mat[yo + ys*r, xo + xs*c]` at `(r, c)`. -/
def sliceSumFold (pdata : Nat → Nat → ℚ) (ys xs : Nat) : Nat → Nat → ℚ :=
  (List.range ys).foldl
    (fun acc yo =>
      (List.range xs).foldl
        (fun acc2 xo => fun r c => acc2 r c + pdata (yo + ys * r) (xo + xs * c)) acc)
    (fun _ _ => 0)

/-- `if yPad>0: out[:-1,-1] *= f` (source line 217): every row but the
last, last column. -/
def fixRightEdge (out : Nat → Nat → ℚ) (oR oC : Nat) (f : ℚ) : Nat → Nat → ℚ :=
  fun r c => if r + 1 < oR ∧ c + 1 = oC then out r c * f else out r c

/-- `if xPad>0: out[-1,:-1] *= f` (source line 218): last row, every column
but the last. -/
def fixBottomEdge (out : Nat → Nat → ℚ) (oR oC : Nat) (f : ℚ) : Nat → Nat → ℚ :=
  fun r c => if r + 1 = oR ∧ c + 1 < oC then out r c * f else out r c

/-- `if yPad>0: out[-1,-1] *= f` (source line 219): the bottom-right cell. -/
def fixCorner (out : Nat → Nat → ℚ) (oR oC : Nat) (f : ℚ) : Nat → Nat → ℚ :=
  fun r c => if r + 1 = oR ∧ c + 1 = oC then out r c * f else out r c

/-- The shared tail of the scale-down branch (source lines 210-219): block
accumulation over the (possibly padded) matrix `m`, division by
`xScale*yScale`, then the three guarded boundary corrections in source
order.  `ys`, `xs` are the absolute scale factors, `yPad`, `xPad` the pads
(both 0 in strict mode). -/
def downCore (m : Mat) (ys xs yPad xPad : Nat) : Mat :=
  let oR := m.rows / ys
  let oC := m.cols / xs
  let out0 : Nat → Nat → ℚ := fun r c => sliceSumFold m.data ys xs r c / (xs * ys)
  let out1 := if 0 < yPad then fixRightEdge out0 oR oC ((ys : ℚ) / ((ys : ℚ) - (yPad : ℚ))) else out0
  let out2 := if 0 < xPad then fixBottomEdge out1 oR oC ((xs : ℚ) / ((xs : ℚ) - (xPad : ℚ))) else out1
  let out3 := if 0 < yPad then
      fixCorner out2 oR oC ((ys : ℚ) * (xs : ℚ) / ((ys : ℚ) - (yPad : ℚ)) / ((xs : ℚ) - (xPad : ℚ)))
    else out2
  { rows := oR, cols := oC, dtype := DType.float, data := out3 }

/-- `scaleMatrix(mat, (yScale, xScale), strict)` (source lines 100-224),
after the integer check: no-op when both factors are 0, block-replication
when both are positive, block-averaging (strict or padded lenient) when
both are negative, `InvalidScaleDirection` otherwise. -/
def scaleMatrix (mat : Mat) (yScale xScale : Int) (strict : Bool) :
    Except ScaleError Mat :=
  if xScale = 0 ∧ yScale = 0 then Except.ok mat
  else if 0 < xScale ∧ 0 < yScale then
    Except.ok (upScaled mat yScale.toNat xScale.toNat)
  else if xScale < 0 ∧ yScale < 0 then
    let ys := (-yScale).toNat
    let xs := (-xScale).toNat
    if strict then
      if mat.rows % ys = 0 ∧ mat.cols % xs = 0 then
        Except.ok (downCore mat ys xs 0 0)
      else Except.error ScaleError.nonFactor
    else
      let yPad := padOf mat.rows ys
      let xPad := padOf mat.cols xs
      Except.ok (downCore (padX (padY mat yPad) xPad) ys xs yPad xPad)
  else Except.error ScaleError.invalidDirection

/-- Read a cell out of a scaling result (0 on error), for stating concrete
evaluations. -/
def resultData (r : Except ScaleError Mat) (i j : Nat) : ℚ :=
  match r with
  | Except.ok m => m.data i j
  | Except.error _ => 0

/-- Configuration of `KernelProcessor` (source line 227): window radius,
edge-fill value, optional output dtype, and whether the kernel receives the
centre cell's indices. -/
structure KernelSpec where
  size : Nat
  edgeValue : ℚ
  outputType : Option DType
  passIndex : Bool

/-- The padded buffer of `KernelProcessor` (source lines 283-284):
`paddedMatrix = np.ones((yN+2*size, xN+2*size)) * edgeValue` followed by
`paddedMatrix[size:-size, size:-size] = matrix`.  When `size = 0` the
assigned slice `[0:-0, 0:-0]` is empty, so the matrix is never copied in
and every entry stays `edgeValue`; when `size > 0` the slice covers rows
`size ≤ r < rows + size` and columns `size ≤ c < cols + size`. -/
def paddedKData (matrix : Mat) (size : Nat) (edgeValue : ℚ) : Nat → Nat → ℚ :=
  fun r c =>
    if 0 < size ∧ size ≤ r ∧ r < matrix.rows + size ∧ size ≤ c ∧ c < matrix.cols + size then
      matrix.data (r - size) (c - size)
    else edgeValue

/-- The window `paddedMatrix[yi : 2*size+yi+1, xi : 2*size+xi+1]` handed to
the kernel for output cell `(yi, xi)` (source line 290). -/
def windowAt (matrix : Mat) (size : Nat) (edgeValue : ℚ) (yi xi : Nat) : Mat :=
  { rows := 2 * size + 1
    cols := 2 * size + 1
    dtype := matrix.dtype
    data := fun i j => paddedKData matrix size edgeValue (yi + i) (xi + j) }

/-- The decorated processor produced by `KernelProcessor` (source lines
277-297): per cell `(yi, xi)` the kernel is applied to the sliced window,
receiving `(xi, yi)` exactly when `passIndex` is set; the output has the
input's extents and dtype `outputType` when given, else the input's. -/
def applyKernel (spec : KernelSpec) (kernel : Mat → Option (Nat × Nat) → ℚ)
    (matrix : Mat) : Mat :=
  { rows := matrix.rows
    cols := matrix.cols
    dtype := spec.outputType.getD matrix.dtype
    data := fun yi xi =>
      kernel (windowAt matrix spec.size spec.edgeValue yi xi)
        (if spec.passIndex then some (xi, yi) else none) }

/-- The centre-value kernel: returns the middle entry of its
`(2·size+1) × (2·size+1)` window. -/
def centerKernel (w : Mat) (_ : Option (Nat × Nat)) : ℚ :=
  w.data (w.rows / 2) (w.cols / 2)

/-- The virtual window described by the specification: entry `(i, j)`
is the input value at `(yi - radius + i, xi - radius + j)` when that
position lies inside the input, and `edgeValue` otherwise. -/
def specWindow (matrix : Mat) (radius : Nat) (edgeValue : ℚ) (yi xi : Nat) : Mat :=
  { rows := 2 * radius + 1
    cols := 2 * radius + 1
    dtype := matrix.dtype
    data := fun i j =>
      let y : Int := (yi : Int) + (i : Int) - (radius : Int)
      let x : Int := (xi : Int) + (j : Int) - (radius : Int)
      if 0 ≤ y ∧ y < (matrix.rows : Int) ∧ 0 ≤ x ∧ x < (matrix.cols : Int) then
        matrix.data y.toNat x.toNat
      else edgeValue }

/-- The padded matrix built by the lenient scale-down branch. -/
def lenientPadded (mat : Mat) (ys xs : Nat) : Mat :=
  padX (padY mat (padOf mat.rows ys)) (padOf mat.cols xs)

/-- The uncorrected block average of the lenient branch: the value of every
output cell before the boundary corrections (source lines 210-214 applied
to the padded matrix). -/
def lenientBase (mat : Mat) (ys xs : Nat) (r c : Nat) : ℚ :=
  sliceSumFold (lenientPadded mat ys xs).data ys xs r c / (xs * ys)

/-- Closed form of the multiplicative boundary correction the source
actually applies at output position `(r, c)` (output extents `oR × oC`):
when `yPad > 0` the last column except the corner gets `ys/(ys-yPad)`;
when `xPad > 0` the last row except the corner gets `xs/(xs-xPad)`; the
corner gets `ys*xs/((ys-yPad)*(xs-xPad))` exactly when `yPad > 0`. -/
def codeCorrFactor (ys xs yPad xPad oR oC r c : Nat) : ℚ :=
  if 0 < yPad ∧ r + 1 < oR ∧ c + 1 = oC then (ys : ℚ) / ((ys : ℚ) - (yPad : ℚ))
  else if 0 < xPad ∧ r + 1 = oR ∧ c + 1 < oC then (xs : ℚ) / ((xs : ℚ) - (xPad : ℚ))
  else if 0 < yPad ∧ r + 1 = oR ∧ c + 1 = oC then
    (ys : ℚ) * (xs : ℚ) / ((ys : ℚ) - (yPad : ℚ)) / ((xs : ℚ) - (xPad : ℚ))
  else 1

/-- 2×2 example matrix from the source docstring. -/
def mat2x2 : Mat := matOfList DType.int [[1, 2], [3, 4]]

/-- A 4-row, 1-column matrix of ones (strict-failure example). -/
def mat4x1 : Mat := matOfList DType.int [[1], [1], [1], [1]]

/-- 4×4 example matrix from the source docstring. -/
def mat4x4 : Mat := matOfList DType.int [[1, 1, 1, 1], [2, 2, 3, 3], [4, 4, 5, 5], [6, 7, 8, 9]]

/-- 3×2 matrix exhibiting asymmetric padding (`yPad = 1`, `xPad = 0` under
scale `(-2, -1)`). -/
def mat3x2 : Mat := matOfList DType.int [[1, 2], [3, 4], [5, 6]]

/-- The 1×1 matrix `[[5]]` from the kernel edge-fill example. -/
def mat1x1 : Mat := matOfList DType.int [[5]]

/-! ### Supporting lemmas -/

lemma foldl_stridedWrite_inner (src : Nat → Nat → ℚ) (ys xs yo : Nat) (l : List Nat)
    (acc : Nat → Nat → ℚ) (r c : Nat) :
    (l.foldl (fun a xo => stridedWrite src ys xs yo xo a) acc) r c =
      if r % ys = yo ∧ c % xs ∈ l then src (r / ys) (c / xs) else acc r c := by
  induction l generalizing acc with
  | nil => simp
  | cons x l ih =>
    simp only [List.foldl_cons, ih, stridedWrite, List.mem_cons]
    by_cases hy : r % ys = yo
    · by_cases hmem : c % xs ∈ l
      · simp [hy, hmem]
      · by_cases hx : c % xs = x
        · simp [hy, hmem, hx]
        · simp [hy, hmem, hx]
    · simp [hy]

lemma foldl_stridedWrite_outer (src : Nat → Nat → ℚ) (ys xs : Nat) (l : List Nat)
    (acc : Nat → Nat → ℚ) (r c : Nat) :
    (l.foldl (fun acc yo =>
        (List.range xs).foldl (fun a2 xo => stridedWrite src ys xs yo xo a2) acc) acc) r c =
      if r % ys ∈ l ∧ c % xs < xs then src (r / ys) (c / xs) else acc r c := by
  induction l generalizing acc with
  | nil => simp
  | cons x l ih =>
    simp only [List.foldl_cons, ih, List.mem_cons]
    by_cases hx : c % xs < xs
    · by_cases hmem : r % ys ∈ l
      · simp [hmem, hx]
      · rw [foldl_stridedWrite_inner]
        by_cases hy : r % ys = x
        · simp [hy, hmem, hx, List.mem_range]
        · simp [hy, hmem, hx]
    · rw [foldl_stridedWrite_inner]
      simp [hx, List.mem_range]

lemma upData_eq (mat : Mat) (ys xs : Nat) (hy : 0 < ys) (hx : 0 < xs) (r c : Nat) :
    upData mat ys xs r c = mat.data (r / ys) (c / xs) := by
  unfold upData
  rw [foldl_stridedWrite_outer]
  rw [if_pos ⟨List.mem_range.2 (Nat.mod_lt r hy), Nat.mod_lt c hx⟩]

lemma foldl_sliceSum_inner (pdata : Nat → Nat → ℚ) (ys xs yo : Nat) (l : List Nat)
    (acc : Nat → Nat → ℚ) (r c : Nat) :
    (l.foldl (fun a xo => fun r c => a r c + pdata (yo + ys * r) (xo + xs * c)) acc) r c =
      acc r c + (l.map (fun xo => pdata (yo + ys * r) (xo + xs * c))).sum := by
  induction l generalizing acc with
  | nil => simp
  | cons x l ih =>
    simp only [List.foldl_cons, ih, List.map_cons, List.sum_cons]
    ring

lemma foldl_sliceSum_outer (pdata : Nat → Nat → ℚ) (ys xs : Nat) (l : List Nat)
    (acc : Nat → Nat → ℚ) (r c : Nat) :
    (l.foldl (fun acc yo =>
        (List.range xs).foldl
          (fun a2 xo => fun r c => a2 r c + pdata (yo + ys * r) (xo + xs * c)) acc) acc) r c =
      acc r c +
        (l.map (fun yo =>
          ((List.range xs).map (fun xo => pdata (yo + ys * r) (xo + xs * c))).sum)).sum := by
  induction l generalizing acc with
  | nil => simp
  | cons x l ih =>
    simp only [List.foldl_cons, ih, List.map_cons, List.sum_cons]
    rw [foldl_sliceSum_inner]
    ring

lemma list_range_map_sum (f : Nat → ℚ) (n : Nat) :
    ((List.range n).map f).sum = ∑ i in Finset.range n, f i := by
  induction n with
  | zero => simp
  | succ n ih =>
    rw [List.range_succ]
    simp [ih, Finset.sum_range_succ]

lemma sliceSumFold_eq (pdata : Nat → Nat → ℚ) (ys xs r c : Nat) :
    sliceSumFold pdata ys xs r c =
      ∑ yo in Finset.range ys, ∑ xo in Finset.range xs, pdata (yo + ys * r) (xo + xs * c) := by
  unfold sliceSumFold
  rw [foldl_sliceSum_outer]
  simp only [zero_add]
  rw [list_range_map_sum]
  exact Finset.sum_congr rfl fun yo _ => list_range_map_sum _ _

lemma padOf_lt (dim scale : Nat) (h : 1 ≤ scale) : padOf dim scale < scale := by
  have hm : dim % scale < scale := Nat.mod_lt dim (by omega)
  simp only [padOf]
  split_ifs <;> omega

lemma padOf_eq_zero_iff (dim scale : Nat) (h : 1 ≤ scale) :
    padOf dim scale = 0 ↔ dim % scale = 0 := by
  have hm : dim % scale < scale := Nat.mod_lt dim (by omega)
  simp only [padOf]
  split_ifs <;> omega

lemma padOf_pos_iff (dim scale : Nat) (h : 1 ≤ scale) :
    0 < padOf dim scale ↔ dim % scale ≠ 0 := by
  have := padOf_eq_zero_iff dim scale h
  omega

lemma scaleMatrix_up (mat : Mat) (yScale xScale : Int) (strict : Bool)
    (hy : 0 < yScale) (hx : 0 < xScale) :
    scaleMatrix mat yScale xScale strict =
      Except.ok (upScaled mat yScale.toNat xScale.toNat) := by
  unfold scaleMatrix
  rw [if_neg (by omega), if_pos ⟨hx, hy⟩]

lemma scaleMatrix_down_strict (mat : Mat) (ys xs : Nat) (hy : 1 ≤ ys) (hx : 1 ≤ xs) :
    scaleMatrix mat (-(ys : Int)) (-(xs : Int)) true =
      if mat.rows % ys = 0 ∧ mat.cols % xs = 0 then Except.ok (downCore mat ys xs 0 0)
      else Except.error ScaleError.nonFactor := by
  unfold scaleMatrix
  rw [if_neg (by omega), if_neg (by omega), if_pos (by constructor <;> omega)]
  simp

lemma scaleMatrix_down_lenient (mat : Mat) (ys xs : Nat) (hy : 1 ≤ ys) (hx : 1 ≤ xs) :
    scaleMatrix mat (-(ys : Int)) (-(xs : Int)) false =
      Except.ok (downCore (padX (padY mat (padOf mat.rows ys)) (padOf mat.cols xs)) ys xs
        (padOf mat.rows ys) (padOf mat.cols xs)) := by
  unfold scaleMatrix
  rw [if_neg (by omega), if_neg (by omega), if_pos (by constructor <;> omega)]
  simp

/-! ### Claim theorems -/

/-- C4: for every matrix and strictly positive integer factors
`(yScale, xScale)`, scaling succeeds with output extents
`(rows·yScale, cols·xScale)`, every output cell `(r, c)` equal to input
cell `(r / yScale, c / xScale)`, and the input's element type. -/
theorem upscale_block_replication (mat : Mat) (yScale xScale : Int) (strict : Bool)
    (hy : 0 < yScale) (hx : 0 < xScale) :
    ∃ out, scaleMatrix mat yScale xScale strict = Except.ok out ∧
      out.rows = mat.rows * yScale.toNat ∧
      out.cols = mat.cols * xScale.toNat ∧
      out.dtype = mat.dtype ∧
      ∀ r, r < out.rows → ∀ c, c < out.cols →
        out.data r c = mat.data (r / yScale.toNat) (c / xScale.toNat) := by
  refine ⟨upScaled mat yScale.toNat xScale.toNat,
    scaleMatrix_up mat yScale xScale strict hy hx, rfl, rfl, rfl, ?_⟩
  intro r _ c _
  exact upData_eq mat yScale.toNat xScale.toNat (by omega) (by omega) r c

/-- C4 witness: the 2×2 docstring example scaled up by `(2, 2)`. -/
theorem upscale_block_replication_witness :
    ∃ out, scaleMatrix mat2x2 2 2 true = Except.ok out ∧
      out.rows = mat2x2.rows * (2 : Int).toNat ∧
      out.cols = mat2x2.cols * (2 : Int).toNat ∧
      out.dtype = mat2x2.dtype ∧
      ∀ r, r < out.rows → ∀ c, c < out.cols →
        out.data r c = mat2x2.data (r / (2 : Int).toNat) (c / (2 : Int).toNat) :=
  upscale_block_replication mat2x2 2 2 true (by norm_num) (by norm_num)

/-- C6: with both factors negative, strict scaling fails with
`NonFactorScaleError` exactly when the absolute y-factor does not divide
the row count or the absolute x-factor does not divide the column count. -/
theorem strict_nonfactor_iff (mat : Mat) (ys xs : Nat) (hy : 1 ≤ ys) (hx : 1 ≤ xs) :
    scaleMatrix mat (-(ys : Int)) (-(xs : Int)) true = Except.error ScaleError.nonFactor ↔
      ¬(mat.rows % ys = 0 ∧ mat.cols % xs = 0) := by
  rw [scaleMatrix_down_strict mat ys xs hy hx]
  split_ifs with h
  · simp [h]
  · simp [h]

/-- C6 witness: a 4-row matrix scaled by `(-3, -1)` raises
`NonFactorScaleError` (4 is not divisible by 3). -/
theorem strict_nonfactor_iff_witness :
    scaleMatrix mat4x1 (-(3 : Nat) : Int) (-(1 : Nat) : Int) true =
      Except.error ScaleError.nonFactor :=
  (strict_nonfactor_iff mat4x1 3 1 (by norm_num) (by norm_num)).2 (by decide)

lemma downCore_zero_pads (m : Mat) (ys xs : Nat) (r c : Nat) :
    (downCore m ys xs 0 0).data r c = sliceSumFold m.data ys xs r c / (xs * ys) := by
  simp [downCore]

/-- C5: strict scale-down with factors dividing the extents yields a
`(rows/yScale) × (cols/xScale)` float matrix in which each output cell is
the arithmetic mean of the corresponding input block starting at
`(r·yScale, c·xScale)`. -/
theorem strict_downscale_mean (mat : Mat) (ys xs : Nat) (hy : 1 ≤ ys) (hx : 1 ≤ xs)
    (hdy : mat.rows % ys = 0) (hdx : mat.cols % xs = 0) :
    ∃ out, scaleMatrix mat (-(ys : Int)) (-(xs : Int)) true = Except.ok out ∧
      out.rows = mat.rows / ys ∧ out.cols = mat.cols / xs ∧ out.dtype = DType.float ∧
      ∀ r c, out.data r c =
        (∑ i in Finset.range ys, ∑ j in Finset.range xs,
            mat.data (r * ys + i) (c * xs + j)) / ((ys : ℚ) * (xs : ℚ)) := by
  rw [scaleMatrix_down_strict mat ys xs hy hx, if_pos ⟨hdy, hdx⟩]
  refine ⟨downCore mat ys xs 0 0, rfl, rfl, rfl, rfl, ?_⟩
  intro r c
  rw [downCore_zero_pads, sliceSumFold_eq]
  have hsum : (∑ yo in Finset.range ys, ∑ xo in Finset.range xs,
        mat.data (yo + ys * r) (xo + xs * c)) =
      ∑ i in Finset.range ys, ∑ j in Finset.range xs, mat.data (r * ys + i) (c * xs + j) := by
    refine Finset.sum_congr rfl fun i _ => Finset.sum_congr rfl fun j _ => ?_
    have h1 : i + ys * r = r * ys + i := by ring
    have h2 : j + xs * c = c * xs + j := by ring
    rw [h1, h2]
  rw [hsum, mul_comm ((xs : ℚ)) ((ys : ℚ))]

/-- C5 witness: the 4×4 docstring example scaled by `(-2, -2)`. -/
theorem strict_downscale_mean_witness :
    ∃ out, scaleMatrix mat4x4 (-(2 : Nat) : Int) (-(2 : Nat) : Int) true = Except.ok out ∧
      out.rows = mat4x4.rows / 2 ∧ out.cols = mat4x4.cols / 2 ∧ out.dtype = DType.float ∧
      ∀ r c, out.data r c =
        (∑ i in Finset.range 2, ∑ j in Finset.range 2,
            mat4x4.data (r * 2 + i) (c * 2 + j)) / ((2 : ℚ) * (2 : ℚ)) :=
  strict_downscale_mean mat4x4 2 2 (by norm_num) (by norm_num) (by decide) (by decide)

/-- C7: scaling up by `(ys, xs)` and then strictly down by `(-ys, -xs)`
recovers the original values (each replicated block is constant, so its
mean is the original value). -/
theorem updown_roundtrip (mat : Mat) (ys xs : Nat) (hy : 1 ≤ ys) (hx : 1 ≤ xs) :
    ∃ up down, scaleMatrix mat (ys : Int) (xs : Int) true = Except.ok up ∧
      scaleMatrix up (-(ys : Int)) (-(xs : Int)) true = Except.ok down ∧
      down.rows = mat.rows ∧ down.cols = mat.cols ∧
      ∀ r, r < mat.rows → ∀ c, c < mat.cols → down.data r c = mat.data r c := by
  have hup := scaleMatrix_up mat (ys : Int) (xs : Int) true (by omega) (by omega)
  have htn : ((ys : Int).toNat = ys ∧ (xs : Int).toNat = xs) := by omega
  rw [htn.1, htn.2] at hup
  refine ⟨upScaled mat ys xs, downCore (upScaled mat ys xs) ys xs 0 0, hup, ?_, ?_, ?_, ?_⟩
  · rw [scaleMatrix_down_strict _ ys xs hy hx, if_pos]
    exact ⟨Nat.mul_mod_left mat.rows ys, Nat.mul_mod_left mat.cols xs⟩
  · show mat.rows * ys / ys = mat.rows
    exact Nat.mul_div_left mat.rows (by omega)
  · show mat.cols * xs / xs = mat.cols
    exact Nat.mul_div_left mat.cols (by omega)
  · intro r _ c _
    rw [downCore_zero_pads, sliceSumFold_eq]
    have hdata : ∀ yo ∈ Finset.range ys, ∀ xo ∈ Finset.range xs,
        (upScaled mat ys xs).data (yo + ys * r) (xo + xs * c) = mat.data r c := by
      intro yo hyo xo hxo
      have e1 : (yo + ys * r) / ys = r := by
        rw [Nat.add_mul_div_left _ _ (show 0 < ys by omega),
          Nat.div_eq_of_lt (Finset.mem_range.1 hyo), Nat.zero_add]
      have e2 : (xo + xs * c) / xs = c := by
        rw [Nat.add_mul_div_left _ _ (show 0 < xs by omega),
          Nat.div_eq_of_lt (Finset.mem_range.1 hxo), Nat.zero_add]
      show upData mat ys xs (yo + ys * r) (xo + xs * c) = mat.data r c
      rw [upData_eq mat ys xs (by omega) (by omega), e1, e2]
    rw [Finset.sum_congr rfl fun yo hyo => Finset.sum_congr rfl (hdata yo hyo)]
    have hys : ((ys : ℚ)) ≠ 0 := Nat.cast_ne_zero.2 (by omega)
    have hxs : ((xs : ℚ)) ≠ 0 := Nat.cast_ne_zero.2 (by omega)
    simp only [Finset.sum_const, Finset.card_range, nsmul_eq_mul]
    field_simp
    ring

/-- C7 witness: round trip of the 2×2 docstring example with factors
`(2, 2)`. -/
theorem updown_roundtrip_witness :
    ∃ up down, scaleMatrix mat2x2 ((2 : Nat) : Int) ((2 : Nat) : Int) true = Except.ok up ∧
      scaleMatrix up (-(2 : Nat) : Int) (-(2 : Nat) : Int) true = Except.ok down ∧
      down.rows = mat2x2.rows ∧ down.cols = mat2x2.cols ∧
      ∀ r, r < mat2x2.rows → ∀ c, c < mat2x2.cols → down.data r c = mat2x2.data r c :=
  updown_roundtrip mat2x2 2 2 (by norm_num) (by norm_num)

/-- C10: when the absolute factors divide the extents, lenient scale-down
returns exactly the strict result: the pads are zero, no padding is
appended, and no boundary correction is applied. -/
theorem lenient_eq_strict_when_divisible (mat : Mat) (ys xs : Nat)
    (hy : 1 ≤ ys) (hx : 1 ≤ xs) (hdy : ys ∣ mat.rows) (hdx : xs ∣ mat.cols) :
    scaleMatrix mat (-(ys : Int)) (-(xs : Int)) false =
      scaleMatrix mat (-(ys : Int)) (-(xs : Int)) true := by
  have hmy : mat.rows % ys = 0 := Nat.dvd_iff_mod_eq_zero.mp hdy
  have hmx : mat.cols % xs = 0 := Nat.dvd_iff_mod_eq_zero.mp hdx
  rw [scaleMatrix_down_lenient mat ys xs hy hx, scaleMatrix_down_strict mat ys xs hy hx,
    if_pos ⟨hmy, hmx⟩]
  rw [(padOf_eq_zero_iff mat.rows ys hy).2 hmy, (padOf_eq_zero_iff mat.cols xs hx).2 hmx]
  simp [padY, padX]

/-- C10 witness: the 4×4 docstring example with factors `(-2, -2)`. -/
theorem lenient_eq_strict_when_divisible_witness :
    scaleMatrix mat4x4 (-(2 : Nat) : Int) (-(2 : Nat) : Int) false =
      scaleMatrix mat4x4 (-(2 : Nat) : Int) (-(2 : Nat) : Int) true :=
  lenient_eq_strict_when_divisible mat4x4 2 2 (by norm_num) (by norm_num)
    (by decide) (by decide)

/-- C3 counterexample: the factor pair `(0, 2)` has no strictly negative
component, yet the scaler raises `InvalidScaleDirection` on it — refuting
the claim that the error occurs only for one-positive-one-negative pairs. -/
theorem direction_error_counterexample :
    scaleMatrix mat2x2 0 2 true = Except.error ScaleError.invalidDirection ∧
    ¬((0 < (0 : Int) ∧ (2 : Int) < 0) ∨ ((0 : Int) < 0 ∧ 0 < (2 : Int))) := by
  constructor
  · rfl
  · decide

/-- C3 amended: the scaler raises `InvalidScaleDirection` exactly when the
factor pair is neither both-zero, nor both strictly positive, nor both
strictly negative (so mixed-sign pairs and pairs with exactly one zero
component raise it). -/
theorem direction_error_iff (mat : Mat) (yScale xScale : Int) (strict : Bool) :
    scaleMatrix mat yScale xScale strict = Except.error ScaleError.invalidDirection ↔
      ¬(yScale = 0 ∧ xScale = 0) ∧ ¬(0 < yScale ∧ 0 < xScale) ∧
        ¬(yScale < 0 ∧ xScale < 0) := by
  unfold scaleMatrix
  split_ifs with h1 h2 h3 h4 <;>
    first
      | (simp only [Except.ok.injEq, reduceCtorEq, Except.error.injEq, false_iff, true_iff,
          not_and, not_lt]
         omega)
      | (dsimp only
         split_ifs <;>
          simp only [Except.ok.injEq, reduceCtorEq, Except.error.injEq, false_iff, not_and,
            not_lt] <;>
          omega)

/-- C9: the pads computed by the lenient scale-down branch always satisfy
`0 ≤ pad < scale` — zero when the scale divides the extent, and in
particular zero when the scale component is 1 — so the correction divisors
`yScale - yPad` and `xScale - xPad` are strictly positive. -/
theorem lenient_pad_invariant (mat : Mat) (ys xs : Nat)
    (hr : 1 ≤ mat.rows) (hc : 1 ≤ mat.cols) (hy : 1 ≤ ys) (hx : 1 ≤ xs) :
    padOf mat.rows ys < ys ∧ padOf mat.cols xs < xs ∧
    (mat.rows % ys = 0 → padOf mat.rows ys = 0) ∧
    (mat.cols % xs = 0 → padOf mat.cols xs = 0) ∧
    (ys = 1 → padOf mat.rows ys = 0) ∧
    (xs = 1 → padOf mat.cols xs = 0) ∧
    0 < ys - padOf mat.rows ys ∧ 0 < xs - padOf mat.cols xs := by
  have h1 := padOf_lt mat.rows ys hy
  have h2 := padOf_lt mat.cols xs hx
  have h3 := padOf_eq_zero_iff mat.rows ys hy
  have h4 := padOf_eq_zero_iff mat.cols xs hx
  refine ⟨h1, h2, h3.2, h4.2, ?_, ?_, by omega, by omega⟩
  · intro h
    subst h
    exact h3.2 (Nat.mod_one _)
  · intro h
    subst h
    exact h4.2 (Nat.mod_one _)

/-- C9 witness: the 3×2 matrix under scale `(-2, -1)`. -/
theorem lenient_pad_invariant_witness :
    padOf mat3x2.rows 2 < 2 ∧ padOf mat3x2.cols 1 < 1 ∧
    (mat3x2.rows % 2 = 0 → padOf mat3x2.rows 2 = 0) ∧
    (mat3x2.cols % 1 = 0 → padOf mat3x2.cols 1 = 0) ∧
    ((2 : Nat) = 1 → padOf mat3x2.rows 2 = 0) ∧
    ((1 : Nat) = 1 → padOf mat3x2.cols 1 = 0) ∧
    0 < 2 - padOf mat3x2.rows 2 ∧ 0 < 1 - padOf mat3x2.cols 1 :=
  lenient_pad_invariant mat3x2 2 1 (by decide) (by decide) (by norm_num) (by norm_num)

lemma windowAt_eq_specWindow (matrix : Mat) (size : Nat) (edgeValue : ℚ)
    (yi xi : Nat) (h : 1 ≤ size) :
    windowAt matrix size edgeValue yi xi = specWindow matrix size edgeValue yi xi := by
  unfold windowAt specWindow
  congr 1
  funext i j
  simp only [paddedKData]
  by_cases hy : size ≤ yi + i ∧ yi + i < matrix.rows + size
  · by_cases hx : size ≤ xi + j ∧ xi + j < matrix.cols + size
    · rw [if_pos ⟨by omega, hy.1, hy.2, hx.1, hx.2⟩, if_pos (by omega)]
      congr 1 <;> omega
    · rw [if_neg (by omega), if_neg (by omega)]
  · rw [if_neg (by omega), if_neg (by omega)]

/-- C8: for radius at least 1, the kernel applier keeps the input extents,
uses `outputType` when given (else the input dtype), and stores at each
cell the kernel's value on the `(2·radius+1) × (2·radius+1)` window centred
there with out-of-bounds positions filled by `edgeValue`, passing the
original indices exactly when `passIndex` is set. -/
theorem kernel_apply_window (spec : KernelSpec) (kernel : Mat → Option (Nat × Nat) → ℚ)
    (matrix : Mat) (h : 1 ≤ spec.size) :
    (applyKernel spec kernel matrix).rows = matrix.rows ∧
    (applyKernel spec kernel matrix).cols = matrix.cols ∧
    (applyKernel spec kernel matrix).dtype = spec.outputType.getD matrix.dtype ∧
    ∀ yi xi, (applyKernel spec kernel matrix).data yi xi =
      kernel (specWindow matrix spec.size spec.edgeValue yi xi)
        (if spec.passIndex then some (xi, yi) else none) := by
  refine ⟨rfl, rfl, rfl, ?_⟩
  intro yi xi
  show kernel (windowAt matrix spec.size spec.edgeValue yi xi) _ = _
  rw [windowAt_eq_specWindow matrix spec.size spec.edgeValue yi xi h]

/-- C8 witness: the 1×1 matrix `[[5]]` with radius 1 and edge value 0 —
the kernel sees exactly the window `[[0,0,0],[0,5,0],[0,0,0]]`, whose
centre value is 5. -/
theorem kernel_apply_window_witness :
    (applyKernel ⟨1, 0, none, false⟩ centerKernel mat1x1).data 0 0 =
      centerKernel (specWindow mat1x1 1 0 0 0)
        (if (⟨1, 0, none, false⟩ : KernelSpec).passIndex then some (0, 0) else none) ∧
    (∀ i, i < 3 → ∀ j, j < 3 →
      (specWindow mat1x1 1 0 0 0).data i j = if i = 1 ∧ j = 1 then 5 else 0) ∧
    centerKernel (specWindow mat1x1 1 0 0 0) none = 5 :=
  ⟨(kernel_apply_window ⟨1, 0, none, false⟩ centerKernel mat1x1 (by decide)).2.2.2 0 0,
    by decide, by decide⟩

/-- C2 (code bug): with radius 0 the assignment
`paddedMatrix[0:-0, 0:-0] = matrix` targets an empty slice, so the kernel
never sees the matrix values: on `[[5]]` with edge value 0 and the
centre-value kernel, the output cell is 0, not 5. -/
theorem radius_zero_bug :
    (applyKernel ⟨0, 0, none, false⟩ centerKernel mat1x1).data 0 0 = 0 ∧
    mat1x1.data 0 0 = 5 := by
  decide

lemma downCore_data (m : Mat) (ys xs yPad xPad r c : Nat) :
    (downCore m ys xs yPad xPad).data r c =
      sliceSumFold m.data ys xs r c / (xs * ys) *
        codeCorrFactor ys xs yPad xPad (m.rows / ys) (m.cols / xs) r c := by
  unfold downCore codeCorrFactor fixRightEdge fixBottomEdge fixCorner
  dsimp only
  generalize m.rows / ys = oR
  generalize m.cols / xs = oC
  by_cases hyp : 0 < yPad <;> by_cases hxp : 0 < xPad <;>
    simp only [hyp, hxp, if_true, if_false, true_and, false_and] <;>
    (try split_ifs) <;> first | ring1 | (exfalso; omega)

/-- C1 amended: in a lenient scale-down, each output cell equals the
uncorrected block average of the padded matrix multiplied by the correction
the source actually applies: when `yPad > 0` the last *column* except the
corner gets `yScale/(yScale-yPad)`, when `xPad > 0` the last *row* except
the corner gets `xScale/(xScale-xPad)`, and the corner gets
`(yScale·xScale)/((yScale-yPad)·(xScale-xPad))` exactly when `yPad > 0`
(regardless of `xPad`); cells away from the last row and column are never
corrected. -/
theorem lenient_boundary_correction (mat : Mat) (ys xs : Nat)
    (hy : 1 ≤ ys) (hx : 1 ≤ xs) :
    ∃ out, scaleMatrix mat (-(ys : Int)) (-(xs : Int)) false = Except.ok out ∧
      out.rows = (lenientPadded mat ys xs).rows / ys ∧
      out.cols = (lenientPadded mat ys xs).cols / xs ∧
      ∀ r c, out.data r c =
        lenientBase mat ys xs r c *
          codeCorrFactor ys xs (padOf mat.rows ys) (padOf mat.cols xs)
            ((lenientPadded mat ys xs).rows / ys) ((lenientPadded mat ys xs).cols / xs) r c := by
  rw [scaleMatrix_down_lenient mat ys xs hy hx]
  exact ⟨_, rfl, rfl, rfl,
    fun r c => downCore_data (lenientPadded mat ys xs) ys xs _ _ r c⟩

/-- C1 amended witness: the 3×2 matrix `[[1,2],[3,4],[5,6]]` scaled by
`(-2, -1)`. -/
theorem lenient_boundary_correction_witness :
    ∃ out, scaleMatrix mat3x2 (-(2 : Nat) : Int) (-(1 : Nat) : Int) false = Except.ok out ∧
      out.rows = (lenientPadded mat3x2 2 1).rows / 2 ∧
      out.cols = (lenientPadded mat3x2 2 1).cols / 1 ∧
      ∀ r c, out.data r c =
        lenientBase mat3x2 2 1 r c *
          codeCorrFactor 2 1 (padOf mat3x2.rows 2) (padOf mat3x2.cols 1)
            ((lenientPadded mat3x2 2 1).rows / 2) ((lenientPadded mat3x2 2 1).cols / 1) r c :=
  lenient_boundary_correction mat3x2 2 1 (by norm_num) (by norm_num)


/-- C1 counterexample: on `[[1,2],[3,4],[5,6]]` scaled by `(-2, -1)` in
lenient mode (`yPad = 1`, `xPad = 0`, output 2×2) the code corrects the
last-column cell `(0,1)` and the corner `(1,1)` and leaves the last-row
cell `(1,0)` diluted, while the claim prescribes the opposite: `(0,1)`
should keep its block mean 3 (code gives 6), `(1,0)` should become
`(5/2)·2/(2-1) = 5` (code gives 5/2), and the corner should keep its block
mean 3 because `xPad = 0` (code gives 6). -/
theorem lenient_boundary_correction_counterexample :
    resultData (scaleMatrix mat3x2 (-(2 : Nat) : Int) (-(1 : Nat) : Int) false) 0 1 = 6 ∧
    resultData (scaleMatrix mat3x2 (-(2 : Nat) : Int) (-(1 : Nat) : Int) false) 1 0 = 5 / 2 ∧
    resultData (scaleMatrix mat3x2 (-(2 : Nat) : Int) (-(1 : Nat) : Int) false) 1 1 = 6 ∧
    padOf mat3x2.rows 2 = 1 ∧ padOf mat3x2.cols 1 = 0 ∧
    lenientBase mat3x2 2 1 0 1 = 3 ∧
    lenientBase mat3x2 2 1 1 0 = 5 / 2 ∧
    lenientBase mat3x2 2 1 1 1 = 3 ∧
    lenientBase mat3x2 2 1 1 0 * ((2 : ℚ) / ((2 : ℚ) - 1)) = 5 ∧
    ((6 : ℚ) ≠ 3 ∧ (5 : ℚ) / 2 ≠ 5) := by
  have hdata : ∀ i j : Nat,
      resultData (scaleMatrix mat3x2 (-(2 : Nat) : Int) (-(1 : Nat) : Int) false) i j =
        sliceSumFold (padX (padY mat3x2 1) 0).data 2 1 i j / ((1 : ℚ) * (2 : ℚ)) *
          codeCorrFactor 2 1 1 0 2 2 i j := by
    intro i j
    rw [scaleMatrix_down_lenient mat3x2 2 1 (by norm_num) (by norm_num)]
    simp only [resultData]
    rw [downCore_data]
    norm_num [show padOf mat3x2.rows 2 = 1 from rfl, show padOf mat3x2.cols 1 = 0 from rfl,
      show (padX (padY mat3x2 1) 0).rows = 4 from rfl,
      show (padX (padY mat3x2 1) 0).cols = 2 from rfl]
  have hbase : ∀ i j : Nat,
      lenientBase mat3x2 2 1 i j =
        sliceSumFold (padX (padY mat3x2 1) 0).data 2 1 i j / ((1 : ℚ) * (2 : ℚ)) := by
    intro i j
    unfold lenientBase lenientPadded
    norm_num [show padOf mat3x2.rows 2 = 1 from rfl, show padOf mat3x2.cols 1 = 0 from rfl]
  have hsum : ∀ i j : Nat,
      sliceSumFold (padX (padY mat3x2 1) 0).data 2 1 i j =
        (padX (padY mat3x2 1) 0).data (2 * i) j + (padX (padY mat3x2 1) 0).data (1 + 2 * i) j := by
    intro i j
    rw [sliceSumFold_eq]
    norm_num [Finset.sum_range_succ, Finset.sum_range_one]
  refine ⟨?_, ?_, ?_, rfl, rfl, ?_, ?_, ?_, ?_, by norm_num, by norm_num⟩
  · rw [hdata, hsum]
    norm_num [codeCorrFactor, show (padX (padY mat3x2 1) 0).data 0 1 = 2 from rfl,
      show (padX (padY mat3x2 1) 0).data 1 1 = 4 from rfl]
  · rw [hdata, hsum]
    norm_num [codeCorrFactor, show (padX (padY mat3x2 1) 0).data 2 0 = 5 from rfl,
      show (padX (padY mat3x2 1) 0).data 3 0 = 0 from rfl]
  · rw [hdata, hsum]
    norm_num [codeCorrFactor, show (padX (padY mat3x2 1) 0).data 2 1 = 6 from rfl,
      show (padX (padY mat3x2 1) 0).data 3 1 = 0 from rfl]
  · rw [hbase, hsum]
    norm_num [show (padX (padY mat3x2 1) 0).data 0 1 = 2 from rfl,
      show (padX (padY mat3x2 1) 0).data 1 1 = 4 from rfl]
  · rw [hbase, hsum]
    norm_num [show (padX (padY mat3x2 1) 0).data 2 0 = 5 from rfl,
      show (padX (padY mat3x2 1) 0).data 3 0 = 0 from rfl]
  · rw [hbase, hsum]
    norm_num [show (padX (padY mat3x2 1) 0).data 2 1 = 6 from rfl,
      show (padX (padY mat3x2 1) 0).data 3 1 = 0 from rfl]
  · rw [hbase, hsum]
    norm_num [show (padX (padY mat3x2 1) 0).data 2 0 = 5 from rfl,
      show (padX (padY mat3x2 1) 0).data 3 0 = 0 from rfl]
